import Mathlib

/-!
Verification of the digital-wellness data-entry core (`src/input.py`).

The embedding follows the class-based variant (`input.py`), which the design
notes name as the authoritative implementation: `DataManager` holds the
ordered list `apps_data`; `add_app_callback` validates raw user fields and
appends on success; `remove_app` deletes by position with a tolerant bound
check; `prepare_submission_data` builds the submission document; the submit
callback checks collection and date before issuing the store write.
-/

set_option autoImplicit false

namespace DigitalWellness

/-- One recorded app usage entry, as built by `DataManager.add_app`:
a dict with keys `name`, `screenTime`, `opens`. Python integers are
unbounded, so the numeric fields are `Int`. -/
structure AppData where
  name : String
  screenTime : Int
  opens : Int
deriving Repr, DecidableEq

/-- The session store: `DataManager.apps_data`, an ordered Python list. -/
abbrev Store := List AppData

/-- Python `x or d` on an integer `x`: returns `d` when `x` is falsy
(i.e. equals `0`), otherwise `x` itself. -/
def intOr (x d : Int) : Int := if x = 0 then d else x

/-- Python `not s` on an optional string: true for `None` and `""`. -/
def strFalsy : Option String → Bool
  | none => true
  | some s => s = ""

/-- `DataManager.parse_screen_time`: `(hours * 3600) + (minutes * 60) + seconds`. -/
def parse_screen_time (hours minutes seconds : Int) : Int :=
  (hours * 3600) + (minutes * 60) + seconds

/-- The entry dict constructed inside `DataManager.add_app`. -/
def mkAppData (app_name : String) (hours minutes seconds opens : Int) : AppData :=
  { name := app_name
  , screenTime := parse_screen_time (intOr hours 0) (intOr minutes 0) (intOr seconds 0)
  , opens := intOr opens 0 }

/-- `DataManager.add_app`: builds the entry dict and appends it to `apps_data`. -/
def add_app (dm : Store) (app_name : String) (hours minutes seconds opens : Int) : Store :=
  dm ++ [mkAppData app_name hours minutes seconds opens]

/-- `DataManager.get_apps_data`: returns the current `apps_data` list. -/
def get_apps_data (dm : Store) : List AppData := dm

/-- `DataManager.remove_app`: `del apps_data[index]` when
`0 <= index < len(apps_data)`, otherwise no mutation. -/
def remove_app (dm : Store) (index : Int) : Store :=
  if 0 ≤ index ∧ index < (dm.length : Int) then dm.eraseIdx index.toNat else dm

/-- The `summary` sub-dict of the submission document. -/
structure Summary where
  screenTime : Int
  unlocks : Int
deriving Repr, DecidableEq

/-- A value of the name-keyed `apps` dict: `{screenTime, opens}`. -/
structure AppsMapValue where
  screenTime : Int
  opens : Int
deriving Repr, DecidableEq

/-- The document built by `DataManager.prepare_submission_data`. The Python
dict `apps` is modelled as an association list in key-insertion order. -/
structure SubmissionDoc where
  date : String
  summary : Summary
  apps : List (String × AppsMapValue)
deriving Repr, DecidableEq

/-- Python dict assignment `d[k] = v`: overwrite the value when the key is
present (keeping its original position), otherwise append the pair. -/
def dictInsert (m : List (String × AppsMapValue)) (k : String) (v : AppsMapValue) :
    List (String × AppsMapValue) :=
  if m.any (fun p => p.1 = k) then m.map (fun p => if p.1 = k then (k, v) else p)
  else m ++ [(k, v)]

/-- Python dict lookup `d[k]`, partial: the value at key `k`, if present. -/
def dictLookup (m : List (String × AppsMapValue)) (k : String) : Option AppsMapValue :=
  (m.find? (fun p => p.1 = k)).map (fun p => p.2)

/-- The dict comprehension in `prepare_submission_data`, built left to right
over `apps_data` with later entries overwriting earlier ones of the same name. -/
def buildAppsDict (dm : Store) : List (String × AppsMapValue) :=
  dm.foldl (fun m app => dictInsert m app.name ⟨app.screenTime, app.opens⟩) []

/-- `DataManager.prepare_submission_data`: the submission document with the
summed totals and the name-keyed `apps` dict. -/
def prepare_submission_data (dm : Store) (date_input : String) : SubmissionDoc :=
  { date := date_input
  , summary :=
      { screenTime := (dm.map (fun app => app.screenTime)).sum
      , unlocks := (dm.map (fun app => app.opens)).sum }
  , apps := buildAppsDict dm }

/-- A raw numeric field as received by `add_app_callback` from the UI:
absent (`None`), an integer value, or a value on which Python `int()`
raises `ValueError`. -/
inductive RawNum where
  | absent
  | intVal (n : Int)
  | nonInt (s : String)
deriving Repr, DecidableEq

/-- The conversion `int(x) if x is not None else 0` of one raw field:
`Except.error ()` models a raised `ValueError`. -/
def convertField : RawNum → Except Unit Int
  | .absent => .ok 0
  | .intVal n => .ok n
  | .nonInt _ => .error ()

/-- The validation errors the add callback can report. -/
inductive ValidationError where
  | emptyName
  | invalidRange (field : String)
  | nonInteger
deriving Repr, DecidableEq

/-- The "add" branch of `add_app_callback` in `input.py`: name check, then
the `try` block converting all four numeric fields to integers (a
`ValueError` anywhere yields the non-integer error), then the range checks
in order hours, minutes, seconds, opens; on success `add_app` runs.
Returns the store after the action and the reported error, if any. -/
def add_app_callback (dm : Store) (app_name : Option String)
    (hours minutes seconds opens : RawNum) : Store × Option ValidationError :=
  if strFalsy app_name then (dm, some .emptyName)
  else
    match convertField hours, convertField minutes, convertField seconds, convertField opens with
    | .ok h, .ok m, .ok s, .ok o =>
      if ¬ (0 ≤ h ∧ h ≤ 24) then (dm, some (.invalidRange "hours"))
      else if ¬ (0 ≤ m ∧ m ≤ 59) then (dm, some (.invalidRange "minutes"))
      else if ¬ (0 ≤ s ∧ s ≤ 59) then (dm, some (.invalidRange "seconds"))
      else if o < 0 then (dm, some (.invalidRange "opens"))
      else (add_app dm (app_name.getD "") h m s o, none)
    | _, _, _, _ => (dm, some .nonInteger)

/-- The outcome of `submit_data_callback`: which error message was returned,
or that `update_mongodb` was invoked with the built document. -/
inductive SubmitResult where
  | missingCollection
  | missingDate
  | submitted (doc : SubmissionDoc)
deriving Repr, DecidableEq

/-- `submit_data_callback` in `input.py`: collection check first, then date
check, then `prepare_submission_data` followed by the store write. -/
def submit_data_callback (dm : Store) (date_input collection_name : Option String) :
    SubmitResult :=
  if strFalsy collection_name then .missingCollection
  else if strFalsy date_input then .missingDate
  else .submitted (prepare_submission_data dm (date_input.getD ""))

/-- Sum of `screenTime` over the entries, by direct recursion; the spec's
"sum of screenTime over all current entries". -/
def sumScreenTime : Store → Int
  | [] => 0
  | a :: rest => a.screenTime + sumScreenTime rest

/-- Sum of `opens` over the entries, by direct recursion; the spec's
"sum of opens over all current entries". -/
def sumOpens : Store → Int
  | [] => 0
  | a :: rest => a.opens + sumOpens rest

/-- The integer contributed by a present-or-absent field: absent means 0,
matching `int(x) if x is not None else 0`. -/
def fieldVal : RawNum → Int
  | .absent => 0
  | .intVal n => n
  | .nonInt _ => 0

/-- The per-entry invariant of the store: non-empty name, screen time within
one day's bound `24*3600 + 59*60 + 59 = 89999`, non-negative opens. -/
def ValidEntry (a : AppData) : Prop :=
  ¬ a.name = "" ∧ 0 ≤ a.screenTime ∧ a.screenTime ≤ 89999 ∧ 0 ≤ a.opens

instance (a : AppData) : Decidable (ValidEntry a) := by
  unfold ValidEntry; infer_instance

/-- The store invariant: every entry is valid. -/
def ValidStore (dm : Store) : Prop := ∀ a ∈ dm, ValidEntry a

instance (dm : Store) : Decidable (ValidStore dm) := by
  unfold ValidStore; exact List.decidableBAll _ _

/-- `intOr x 0` is the identity on integers: `x or 0` in Python returns `x`
whether or not `x` is zero. -/
lemma intOr_zero (x : Int) : intOr x 0 = x := by
  unfold intOr; split <;> omega

/-- `add_app` with already-validated integer fields appends the evident entry. -/
lemma add_app_eq (dm : Store) (n : String) (h m s o : Int) :
    add_app dm n h m s o = dm ++ [⟨n, parse_screen_time h m s, o⟩] := by
  simp [add_app, mkAppData, intOr_zero]

/-- Every outcome of the add callback: either the store is untouched (an
error branch ran) or validation succeeded and the bounded entry was appended. -/
lemma add_app_callback_result (dm : Store) (app_name : Option String)
    (hours minutes seconds opens : RawNum) :
    (add_app_callback dm app_name hours minutes seconds opens).1 = dm ∨
    ∃ n h m s o, ¬ n = "" ∧ (0 ≤ h ∧ h ≤ 24) ∧ (0 ≤ m ∧ m ≤ 59) ∧ (0 ≤ s ∧ s ≤ 59) ∧ 0 ≤ o ∧
      (add_app_callback dm app_name hours minutes seconds opens).1
        = dm ++ [⟨n, parse_screen_time h m s, o⟩] ∧
      (add_app_callback dm app_name hours minutes seconds opens).2 = none := by
  unfold add_app_callback
  cases hname : strFalsy app_name
  · simp only [Bool.false_eq_true, if_false]
    cases convertField hours with
    | error u => cases convertField minutes <;> cases convertField seconds <;>
        cases convertField opens <;> exact Or.inl rfl
    | ok h =>
      cases convertField minutes with
      | error u => cases convertField seconds <;> cases convertField opens <;> exact Or.inl rfl
      | ok m =>
        cases convertField seconds with
        | error u => cases convertField opens <;> exact Or.inl rfl
        | ok s =>
          cases convertField opens with
          | error u => exact Or.inl rfl
          | ok o =>
            dsimp only
            by_cases c1 : 0 ≤ h ∧ h ≤ 24
            · by_cases c2 : 0 ≤ m ∧ m ≤ 59
              · by_cases c3 : 0 ≤ s ∧ s ≤ 59
                · by_cases c4 : o < 0
                  · rw [if_neg (not_not_intro c1), if_neg (not_not_intro c2),
                      if_neg (not_not_intro c3), if_pos c4]
                    exact Or.inl rfl
                  · rw [if_neg (not_not_intro c1), if_neg (not_not_intro c2),
                      if_neg (not_not_intro c3), if_neg c4]
                    refine Or.inr ⟨app_name.getD "", h, m, s, o, ?_, c1, c2, c3, by omega,
                      add_app_eq dm _ h m s o, rfl⟩
                    cases app_name with
                    | none => simp [strFalsy] at hname
                    | some n => simpa [strFalsy] using hname
                · rw [if_neg (not_not_intro c1), if_neg (not_not_intro c2), if_pos c3]
                  exact Or.inl rfl
              · rw [if_neg (not_not_intro c1), if_pos c2]
                exact Or.inl rfl
            · rw [if_pos c1]
              exact Or.inl rfl
  · simp [hname]

/-- The success path of the add callback: non-empty name, all conversions
succeed and all range checks pass, so `add_app` appends the entry. -/
lemma add_app_callback_ok (dm : Store) (app_name : Option String)
    (hours minutes seconds opens : RawNum) (h m s o : Int)
    (hname : strFalsy app_name = false)
    (eh : convertField hours = .ok h) (em : convertField minutes = .ok m)
    (es : convertField seconds = .ok s) (eo : convertField opens = .ok o)
    (rh : 0 ≤ h ∧ h ≤ 24) (rm : 0 ≤ m ∧ m ≤ 59) (rs : 0 ≤ s ∧ s ≤ 59) (ro : 0 ≤ o) :
    add_app_callback dm app_name hours minutes seconds opens
      = (dm ++ [⟨app_name.getD "", parse_screen_time h m s, o⟩], none) := by
  unfold add_app_callback
  simp only [hname, Bool.false_eq_true, if_false, eh, em, es, eo]
  rw [if_neg (not_not_intro rh), if_neg (not_not_intro rm), if_neg (not_not_intro rs),
    if_neg (by omega : ¬ o < 0), add_app_eq]

/-- Claim C1: for a session holding two entries both named "Brave" with
screen times 10 and 20, the built document's name-keyed `apps` map holds the
later entry (screenTime 20, last write wins) while `summary.screenTime`
still sums both entries to 30. -/
theorem brave_duplicate_overwrite_vs_sum (o1 o2 : Int) (date : String) :
    dictLookup (prepare_submission_data [⟨"Brave", 10, o1⟩, ⟨"Brave", 20, o2⟩] date).apps "Brave"
      = some ⟨20, o2⟩ ∧
    (prepare_submission_data [⟨"Brave", 10, o1⟩, ⟨"Brave", 20, o2⟩] date).summary.screenTime
      = 30 := by
  constructor <;> rfl

/-- Claim C2: for every store state and every non-empty date, the document
returned by `prepare_submission_data` has `summary.screenTime` equal to the
sum of `screenTime` over all current entries and `summary.unlocks` equal to
the sum of `opens` over all current entries. -/
theorem summary_totals (dm : Store) (date : String) (hdate : date ≠ "") :
    (prepare_submission_data dm date).summary.screenTime = sumScreenTime dm ∧
    (prepare_submission_data dm date).summary.unlocks = sumOpens dm := by
  constructor
  · show (dm.map (fun a => a.screenTime)).sum = sumScreenTime dm
    induction dm with
    | nil => rfl
    | cons a rest ih => simp [sumScreenTime, ih]
  · show (dm.map (fun a => a.opens)).sum = sumOpens dm
    induction dm with
    | nil => rfl
    | cons a rest ih => simp [sumOpens, ih]

/-- Witness for C2: entries with screen times 10, 20, 30 and opens 1, 2, 3
yield total screen time 60 and total unlocks 6. -/
theorem summary_totals_witness :
    (prepare_submission_data [⟨"A", 10, 1⟩, ⟨"B", 20, 2⟩, ⟨"C", 30, 3⟩]
      "2024-01-01").summary.screenTime = 60 ∧
    (prepare_submission_data [⟨"A", 10, 1⟩, ⟨"B", 20, 2⟩, ⟨"C", 30, 3⟩]
      "2024-01-01").summary.unlocks = 6 := by
  have h := summary_totals [⟨"A", 10, 1⟩, ⟨"B", 20, 2⟩, ⟨"C", 30, 3⟩] "2024-01-01" (by decide)
  exact ⟨h.1.trans (by decide), h.2.trans (by decide)⟩

/-- Counterexample to claim C3 as stated: with hours 25 (out of range) and a
non-integer seconds field, the callback reports the non-integer error, not
the hours range error, because all integer conversions run before any range
check. -/
theorem validation_order_counterexample :
    add_app_callback [] (some "Brave") (.intVal 25) .absent (.nonInt "x") .absent
      = ([], some ValidationError.nonInteger) ∧
    ValidationError.nonInteger ≠ ValidationError.invalidRange "hours" := by
  decide

/-- Claim C3 (amended): validation checks the name first; then all four
numeric fields are converted to integers, and a conversion failure anywhere
yields the non-integer error (even when an earlier field is out of range);
with all fields integer-convertible, the range checks run in order hours,
minutes, seconds, opens, returning the first failing field's range error,
and when everything passes the entry is appended. -/
theorem validation_order_amended (dm : Store) (app_name : Option String)
    (hours minutes seconds opens : RawNum) :
    (strFalsy app_name = true →
      add_app_callback dm app_name hours minutes seconds opens = (dm, some .emptyName)) ∧
    (strFalsy app_name = false →
      ((convertField hours = .error () ∨ convertField minutes = .error () ∨
        convertField seconds = .error () ∨ convertField opens = .error ()) →
        add_app_callback dm app_name hours minutes seconds opens = (dm, some .nonInteger)) ∧
      (∀ h m s o, convertField hours = .ok h → convertField minutes = .ok m →
        convertField seconds = .ok s → convertField opens = .ok o →
        (¬ (0 ≤ h ∧ h ≤ 24) →
          add_app_callback dm app_name hours minutes seconds opens
            = (dm, some (.invalidRange "hours"))) ∧
        ((0 ≤ h ∧ h ≤ 24) → ¬ (0 ≤ m ∧ m ≤ 59) →
          add_app_callback dm app_name hours minutes seconds opens
            = (dm, some (.invalidRange "minutes"))) ∧
        ((0 ≤ h ∧ h ≤ 24) → (0 ≤ m ∧ m ≤ 59) → ¬ (0 ≤ s ∧ s ≤ 59) →
          add_app_callback dm app_name hours minutes seconds opens
            = (dm, some (.invalidRange "seconds"))) ∧
        ((0 ≤ h ∧ h ≤ 24) → (0 ≤ m ∧ m ≤ 59) → (0 ≤ s ∧ s ≤ 59) → o < 0 →
          add_app_callback dm app_name hours minutes seconds opens
            = (dm, some (.invalidRange "opens"))) ∧
        ((0 ≤ h ∧ h ≤ 24) → (0 ≤ m ∧ m ≤ 59) → (0 ≤ s ∧ s ≤ 59) → 0 ≤ o →
          add_app_callback dm app_name hours minutes seconds opens
            = (add_app dm (app_name.getD "") h m s o, none)))) := by
  constructor
  · intro hn
    simp [add_app_callback, hn]
  · intro hn
    constructor
    · intro herr
      unfold add_app_callback
      simp only [hn, Bool.false_eq_true, if_false]
      rcases herr with h | h | h | h <;> rw [h] <;>
        cases convertField hours <;> cases convertField minutes <;>
        cases convertField seconds <;> cases convertField opens <;> rfl
    · intro h m s o eh em es eo
      unfold add_app_callback
      simp only [hn, Bool.false_eq_true, if_false, eh, em, es, eo]
      refine ⟨fun hr => ?_, fun hr1 hr2 => ?_, fun hr1 hr2 hr3 => ?_,
        fun hr1 hr2 hr3 hr4 => ?_, fun hr1 hr2 hr3 hr4 => ?_⟩ <;>
        split_ifs <;> first | rfl | omega

/-- Witness for C3 (amended): hours 25 with the other fields 0 yields the
hours range error on an unchanged empty store. -/
theorem validation_order_amended_witness :
    add_app_callback [] (some "Brave") (.intVal 25) (.intVal 0) (.intVal 0) (.intVal 0)
      = ([], some (.invalidRange "hours")) := by
  have h := (validation_order_amended [] (some "Brave")
    (.intVal 25) (.intVal 0) (.intVal 0) (.intVal 0)).2 (by decide)
  exact (h.2 25 0 0 0 rfl rfl rfl rfl).1 (by decide)

/-- Claim C4: `remove_app` with an index outside `[0, length)` leaves the
enumerated sequence unchanged (a silent no-op), and with an index inside
the range it removes exactly the entry at that position. -/
theorem remove_app_spec (dm : Store) (i : Int) :
    (¬ (0 ≤ i ∧ i < (dm.length : Int)) → get_apps_data (remove_app dm i) = get_apps_data dm) ∧
    ((0 ≤ i ∧ i < (dm.length : Int)) →
      get_apps_data (remove_app dm i) = dm.take i.toNat ++ dm.drop (i.toNat + 1)) := by
  constructor
  · intro hout
    simp [remove_app, get_apps_data, hout]
  · intro hin
    simp only [remove_app, get_apps_data, if_pos hin]
    exact List.eraseIdx_eq_take_drop_succ dm i.toNat

/-- Witness for C4: removing index 5 from a three-entry store changes
nothing; removing index 1 deletes exactly the middle entry. -/
theorem remove_app_spec_witness :
    get_apps_data (remove_app [⟨"A", 1, 1⟩, ⟨"B", 2, 2⟩, ⟨"C", 3, 3⟩] 5)
      = [⟨"A", 1, 1⟩, ⟨"B", 2, 2⟩, ⟨"C", 3, 3⟩] ∧
    get_apps_data (remove_app [⟨"A", 1, 1⟩, ⟨"B", 2, 2⟩, ⟨"C", 3, 3⟩] 1)
      = [⟨"A", 1, 1⟩, ⟨"C", 3, 3⟩] := by
  constructor
  · exact (remove_app_spec [⟨"A", 1, 1⟩, ⟨"B", 2, 2⟩, ⟨"C", 3, 3⟩] 5).1 (by decide)
  · exact ((remove_app_spec [⟨"A", 1, 1⟩, ⟨"B", 2, 2⟩, ⟨"C", 3, 3⟩] 1).2 (by decide)).trans
      (by decide)

/-- Claim C5: for all integers `h` in `[0,24]`, `m` in `[0,59]`, `s` in
`[0,59]`, `parse_screen_time h m s` equals `h*3600 + m*60 + s` and the
result is non-negative. -/
theorem parse_screen_time_spec (h m s : Int)
    (hh : 0 ≤ h ∧ h ≤ 24) (hm : 0 ≤ m ∧ m ≤ 59) (hs : 0 ≤ s ∧ s ≤ 59) :
    parse_screen_time h m s = h * 3600 + m * 60 + s ∧ 0 ≤ parse_screen_time h m s := by
  refine ⟨rfl, ?_⟩
  unfold parse_screen_time
  omega

/-- Witness for C5: one hour and thirty minutes gives 5400 seconds. -/
theorem parse_screen_time_spec_witness :
    parse_screen_time 1 30 0 = 1 * 3600 + 30 * 60 + 0 ∧ 0 ≤ parse_screen_time 1 30 0 :=
  parse_screen_time_spec 1 30 0 (by decide) (by decide) (by decide)

/-- Claim C6: for every store state, submitting with an empty or absent date
never invokes the external insert, and when a collection is selected the
reported outcome is the missing-date error. -/
theorem submit_empty_date_spec (dm : Store) (date coll : Option String)
    (hdate : strFalsy date = true) :
    (∀ doc, submit_data_callback dm date coll ≠ .submitted doc) ∧
    (strFalsy coll = false → submit_data_callback dm date coll = .missingDate) := by
  unfold submit_data_callback
  cases hcoll : strFalsy coll <;> simp [hdate, hcoll]

/-- Witness for C6: with one entry, an empty date and collection "user1",
the result is the missing-date error and no document is submitted. -/
theorem submit_empty_date_spec_witness :
    (∀ doc, submit_data_callback [⟨"Brave", 5400, 5⟩] (some "") (some "user1")
      ≠ .submitted doc) ∧
    submit_data_callback [⟨"Brave", 5400, 5⟩] (some "") (some "user1") = .missingDate := by
  have h := submit_empty_date_spec [⟨"Brave", 5400, 5⟩] (some "") (some "user1") (by decide)
  exact ⟨h.1, h.2 (by decide)⟩

/-- Claim C7: whenever the add callback reports a validation error, the
store after the action equals the store before it: no partial entry is
ever appended. -/
theorem failed_validation_preserves_store (dm : Store) (app_name : Option String)
    (hours minutes seconds opens : RawNum) (e : ValidationError)
    (herr : (add_app_callback dm app_name hours minutes seconds opens).2 = some e) :
    (add_app_callback dm app_name hours minutes seconds opens).1 = dm := by
  rcases add_app_callback_result dm app_name hours minutes seconds opens with h | h
  · exact h
  · obtain ⟨n, hv, mv, sv, ov, hn, rh, rm, rs, ro, h1, h2⟩ := h
    rw [h2] at herr
    exact Option.noConfusion herr

/-- Witness for C7: hours 25 yields the hours range error and leaves the
one-entry store unchanged. -/
theorem failed_validation_preserves_store_witness :
    (add_app_callback [⟨"Mail", 600, 2⟩] (some "Brave") (.intVal 25) .absent .absent .absent).1
      = [⟨"Mail", 600, 2⟩] :=
  failed_validation_preserves_store [⟨"Mail", 600, 2⟩] (some "Brave")
    (.intVal 25) .absent .absent .absent (.invalidRange "hours") (by decide)

/-- Claim C8: two successive `add_app` calls extend the enumerated sequence
with the first entry then the second at the end, preserving the prior
entries and their order. -/
theorem add_app_order (dm : Store) (n1 : String) (h1 m1 s1 o1 : Int)
    (n2 : String) (h2 m2 s2 o2 : Int) :
    get_apps_data (add_app (add_app dm n1 h1 m1 s1 o1) n2 h2 m2 s2 o2)
      = get_apps_data dm ++ [mkAppData n1 h1 m1 s1 o1, mkAppData n2 h2 m2 s2 o2] := by
  simp [add_app, get_apps_data]

/-- Claim C9: with a non-empty name and each numeric field either absent or
a valid in-range integer, the add callback succeeds and appends an entry in
which every absent field contributed 0. -/
theorem absent_fields_default_zero (dm : Store) (n : String) (hn : ¬ n = "")
    (hours minutes seconds opens : RawNum)
    (hh : hours = .absent ∨ ∃ v, hours = .intVal v ∧ 0 ≤ v ∧ v ≤ 24)
    (hm : minutes = .absent ∨ ∃ v, minutes = .intVal v ∧ 0 ≤ v ∧ v ≤ 59)
    (hs : seconds = .absent ∨ ∃ v, seconds = .intVal v ∧ 0 ≤ v ∧ v ≤ 59)
    (ho : opens = .absent ∨ ∃ v, opens = .intVal v ∧ 0 ≤ v) :
    add_app_callback dm (some n) hours minutes seconds opens
      = (dm ++ [⟨n, parse_screen_time (fieldVal hours) (fieldVal minutes) (fieldVal seconds),
          fieldVal opens⟩], none) := by
  have ch : convertField hours = .ok (fieldVal hours) ∧
      0 ≤ fieldVal hours ∧ fieldVal hours ≤ 24 := by
    rcases hh with rfl | ⟨v, rfl, a, b⟩
    · exact ⟨rfl, by decide, by decide⟩
    · exact ⟨rfl, a, b⟩
  have cm : convertField minutes = .ok (fieldVal minutes) ∧
      0 ≤ fieldVal minutes ∧ fieldVal minutes ≤ 59 := by
    rcases hm with rfl | ⟨v, rfl, a, b⟩
    · exact ⟨rfl, by decide, by decide⟩
    · exact ⟨rfl, a, b⟩
  have cs : convertField seconds = .ok (fieldVal seconds) ∧
      0 ≤ fieldVal seconds ∧ fieldVal seconds ≤ 59 := by
    rcases hs with rfl | ⟨v, rfl, a, b⟩
    · exact ⟨rfl, by decide, by decide⟩
    · exact ⟨rfl, a, b⟩
  have co : convertField opens = .ok (fieldVal opens) ∧ 0 ≤ fieldVal opens := by
    rcases ho with rfl | ⟨v, rfl, a⟩
    · exact ⟨rfl, by decide⟩
    · exact ⟨rfl, a⟩
  have hname : strFalsy (some n) = false := by simp [strFalsy, hn]
  have := add_app_callback_ok dm (some n) hours minutes seconds opens
    (fieldVal hours) (fieldVal minutes) (fieldVal seconds) (fieldVal opens)
    hname ch.1 cm.1 cs.1 co.1 ⟨ch.2.1, ch.2.2⟩ ⟨cm.2.1, cm.2.2⟩ ⟨cs.2.1, cs.2.2⟩ co.2
  simpa using this

/-- Witness for C9: an add with only the name "Brave" present succeeds and
appends an entry with screen time 0 and opens 0. -/
theorem absent_fields_default_zero_witness :
    add_app_callback [] (some "Brave") .absent .absent .absent .absent
      = ([⟨"Brave", 0, 0⟩], none) := by
  have h := absent_fields_default_zero [] "Brave" (by decide) .absent .absent .absent .absent
    (Or.inl rfl) (Or.inl rfl) (Or.inl rfl) (Or.inl rfl)
  exact h.trans (by decide)

/-- Claim C10: on a store whose entries all satisfy the invariant (non-empty
name, screen time in `[0, 89999]`, non-negative opens), every public
operation — any add-callback outcome and any removal — preserves the
invariant, and the summary totals of any built document are non-negative. -/
theorem store_invariant_preserved (dm : Store) (hdm : ValidStore dm) :
    (∀ app_name hours minutes seconds opens,
      ValidStore (add_app_callback dm app_name hours minutes seconds opens).1) ∧
    (∀ i, ValidStore (remove_app dm i)) ∧
    (∀ date, 0 ≤ (prepare_submission_data dm date).summary.screenTime ∧
      0 ≤ (prepare_submission_data dm date).summary.unlocks) := by
  refine ⟨?_, ?_, ?_⟩
  · intro app_name hours minutes seconds opens
    rcases add_app_callback_result dm app_name hours minutes seconds opens with h | h
    · rw [h]; exact hdm
    · obtain ⟨n, hv, mv, sv, ov, hn, rh, rm, rs, ro, h1, h2⟩ := h
      rw [h1]
      intro a ha
      rcases List.mem_append.1 ha with ha | ha
      · exact hdm a ha
      · rcases List.mem_singleton.1 ha with rfl
        refine ⟨hn, ?_, ?_, ro⟩ <;> dsimp only <;> unfold parse_screen_time <;> omega
  · intro i
    unfold remove_app
    split
    · intro a ha
      rw [List.eraseIdx_eq_take_drop_succ] at ha
      rcases List.mem_append.1 ha with ha | ha
      · exact hdm a (List.take_subset _ _ ha)
      · exact hdm a (List.drop_subset _ _ ha)
    · exact hdm
  · intro date
    constructor
    · apply List.sum_nonneg
      intro x hx
      rcases List.mem_map.1 hx with ⟨a, ha, rfl⟩
      exact (hdm a ha).2.1
    · apply List.sum_nonneg
      intro x hx
      rcases List.mem_map.1 hx with ⟨a, ha, rfl⟩
      exact (hdm a ha).2.2.2

/-- Witness for C10: a valid one-entry store stays valid after a successful
add and after an out-of-range removal, and its summary total is
non-negative. -/
theorem store_invariant_preserved_witness :
    ValidStore ((add_app_callback [⟨"Mail", 600, 2⟩] (some "Brave")
      (.intVal 1) (.intVal 30) .absent (.intVal 5)).1) ∧
    ValidStore (remove_app [⟨"Mail", 600, 2⟩] 7) ∧
    0 ≤ (prepare_submission_data [⟨"Mail", 600, 2⟩] "2024-01-01").summary.screenTime := by
  have h := store_invariant_preserved [⟨"Mail", 600, 2⟩] (by decide)
  exact ⟨h.1 (some "Brave") (.intVal 1) (.intVal 30) .absent (.intVal 5),
    h.2.1 7, (h.2.2 "2024-01-01").1⟩

end DigitalWellness
